import Mathlib

/-!
# Verification of the winterm cell-buffer compositor

Shallow embedding of the data model and drawing operations of
`src/include/winterm.h` (namespace `term`) and `src/include/win32-console.h`
(namespace `w32c`).  The two headers share the same rendering logic; the
`term` variant additionally returns the `(first, last)` column pair from
`impl::string`.  All Win32 calls (console handles, `WriteConsoleOutput`,
cursor info, window styles) are external I/O with no logic of their own and
are not modelled; the in-memory backbuffer, the markup scan, the layout
arithmetic and the cursor-visibility choreography of `input` are modelled
exactly.

Modelling conventions:
* C++ `int` coordinates appear here as `Nat`.  `impl::string` asserts
  `position.x >= 0 && position.y >= 0`, `character` asserts both axes
  non-negative, and `size` asserts a positive cell count, so on the asserted
  domain the values are natural numbers and no overflow arises for any
  feasible console dimension.
* `wchar_t` is 16 bits wide (MSVC); a character is modelled by its code
  point (`Char.toNat`), and the one place the code does arithmetic on it —
  `(uint16_t)(c - L'0')` assigned to a 4-bit bit-field — is modelled with
  the explicit wrap `((c.toNat + 65536) - 48) % 65536 % 16`.
* `CHAR_INFO` is a pair of a character and a packed 16-bit attribute word;
  the bit-fields `foreground : 4` / `background : 4` occupy the low byte,
  `_other` is always zero.
* The backbuffer is modelled as a total function `Nat → Cell`; each
  `backbuffer[i] = …` assignment is a pointwise update.  The claims proved
  below establish that all writes stay inside the allocated
  `width * height` prefix.
* The `for (int i = 0; i < size; ++i)` loop of `impl::string` advances `i`
  by at least one character per iteration, so it performs at most `size`
  iterations; the loop is embedded as structural recursion on a fuel
  argument initialised to the string length.
-/

namespace Winterm

/-- Console color indices (winterm.h lines 19–37, identical in
win32-console.h). -/
def black : Nat := 0

def blue : Nat := 1

def green : Nat := 2

def red : Nat := 4

def cyan : Nat := 3

def gold : Nat := 6

def purple : Nat := 5

def white : Nat := 7

def intense : Nat := 8

/-- `struct vec2 { int x, y; };` restricted to the asserted non-negative
domain. -/
structure Vec2 where
  x : Nat
  y : Nat
deriving DecidableEq, Repr

/-- `struct attribute` with bit-fields `foreground : 4` and
`background : 4` (`_other` is always 0).  Fields hold the stored 4-bit
values. -/
structure Attribute where
  foreground : Nat
  background : Nat
deriving DecidableEq, Repr

/-- The constructor `attribute(f, b = black)`: assigning to a 4-bit
bit-field truncates the value modulo 16. -/
def mkAttribute (f : Nat) (b : Nat) : Attribute :=
  ⟨f % 16, b % 16⟩

/-- Reading `*(uint16_t*)&attrib`: the packed 16-bit word, low 4 bits the
foreground, next 4 bits the background, high byte zero. -/
def attrPack (a : Attribute) : Nat :=
  a.foreground % 16 + 16 * (a.background % 16)

/-- One `CHAR_INFO` entry of the backbuffer: the character code and the
packed attribute word. -/
structure Cell where
  ch : Nat
  attr : Nat
deriving DecidableEq, Repr

/-- `memset(..., 0, ...)` writes this cell everywhere. -/
def zeroCell : Cell := ⟨0, 0⟩

/-- The mutable console state: `state().size` and the backbuffer array.
The backbuffer is total; only indices below `width * height` are
allocated. -/
structure ConsoleState where
  width : Nat
  height : Nat
  backbuffer : Nat → Cell

/-- `impl::string_length` (winterm.h lines 160–177, identical in
win32-console.h lines 132–149): the tag-stripped length of a string.
The branch `i + 1 < size && str[i] == L'\\' && str[i + 1] == L'#'` does
`i += 1` and falls through to `real_length += 1`; the branch
`i + 2 < size && str[i] == L'#'` does `i += 2; continue`; otherwise
`real_length += 1`. -/
def string_length : List Char → Nat
  | [] => 0
  | '\\' :: '#' :: rest => string_length rest + 1
  | '#' :: _ :: _ :: rest => string_length rest
  | _ :: rest => string_length rest + 1

/-- One color-code character of a `#FB` tag applied to one 4-bit channel:
`if (str[i + k] != L'X') channel = (uint16_t)(str[i + k] - L'0');`.
The subtraction is wchar/int arithmetic cast to `uint16_t` (wrap modulo
2^16) and the bit-field assignment truncates modulo 16. -/
def tagChannel (old : Nat) (c : Char) : Nat :=
  if c = 'X' then old else ((c.toNat + 65536) - 48) % 65536 % 16

/-- The body of the rendering loop of `impl::string` (winterm.h lines
201–232, identical in win32-console.h lines 175–206), as structural
recursion on fuel (the loop runs at most `size` iterations).  Returns the
list of backbuffer writes performed, in order, and the final value of
`xpos`.

Per iteration, mirroring the source exactly:
* `if (position.x + xpos >= state().size.x) break;`
* escape branch `i + 1 < size && str[i] == L'\\' && str[i + 1] == L'#'`:
  `continue` — only the backslash is consumed (`++i`); the `#` is
  re-examined on the next iteration;
* tag branch `i + 2 < size && str[i] == L'#'`: update both channels via
  `tagChannel`, consume three characters, write nothing;
* otherwise write `{str[i], *(uint16_t*)&attrib}` at `start + xpos` and
  increment `xpos`. -/
def renderAux (w px start : Nat) : Nat → Attribute → Nat → List Char →
    List (Nat × Cell) × Nat
  | 0, _, xpos, _ => ([], xpos)
  | _ + 1, _, xpos, [] => ([], xpos)
  | fuel + 1, a, xpos, '\\' :: '#' :: rest =>
      if w ≤ px + xpos then ([], xpos)
      else renderAux w px start fuel a xpos ('#' :: rest)
  | fuel + 1, a, xpos, '#' :: f :: b :: rest =>
      if w ≤ px + xpos then ([], xpos)
      else renderAux w px start fuel
        ⟨tagChannel a.foreground f, tagChannel a.background b⟩ xpos rest
  | fuel + 1, a, xpos, c :: rest =>
      if w ≤ px + xpos then ([], xpos)
      else
        let out := renderAux w px start fuel a (xpos + 1) rest
        ((start + xpos, ⟨c.toNat, attrPack a⟩) :: out.1, out.2)

/-- The start-index computation of `impl::string` (winterm.h lines
190–199): `start = position.x + position.y * size.x`, then for centered
draws `start -= position.x` when `len / 2 > position.x`, else
`start -= len / 2`. -/
def stringStart (st : ConsoleState) (pos : Vec2) (centered : Bool)
    (s : List Char) : Nat :=
  let start := pos.x + pos.y * st.width
  if centered then
    let len := string_length s
    if len / 2 > pos.x then start - pos.x else start - len / 2
  else start

/-- The ordered list of backbuffer writes performed by `impl::string`. -/
def term_string_writes (st : ConsoleState) (pos : Vec2) (a : Attribute)
    (centered : Bool) (s : List Char) : List (Nat × Cell) :=
  (renderAux st.width pos.x (stringStart st pos centered s) s.length a 0 s).1

/-- Apply a list of `backbuffer[i] = cell` assignments in order. -/
def applyWrites : List (Nat × Cell) → (Nat → Cell) → Nat → Cell
  | [], buf => buf
  | (j, cell) :: rest, buf =>
      applyWrites rest (fun k => if k = j then cell else buf k)

/-- `term::impl::string` (winterm.h lines 180–236): render the string into
the backbuffer and return the pair
`{ first, first + xpos - 1 }` where `first = (int)start - position.y *
size.x`.  (`w32c::impl::string` performs the same buffer mutation and
returns nothing.) -/
def term_string (st : ConsoleState) (pos : Vec2) (a : Attribute)
    (centered : Bool) (s : List Char) : ConsoleState × Int × Int :=
  let start := stringStart st pos centered s
  let r := renderAux st.width pos.x start s.length a 0 s
  let first : Int := (start : Int) - ((pos.y : Int) * (st.width : Int))
  ({ st with backbuffer := applyWrites r.1 st.backbuffer },
    first, first + (r.2 : Int) - 1)

/-- `term::size(vec2)` / `w32c::size(vec2)` (winterm.h lines 321–332):
store the new dimensions and allocate a fresh zero-filled backbuffer
(`make_unique` + `memset 0`); nothing of the previous state survives.
The Win32 window-resizing calls are external. -/
def size (_st : ConsoleState) (s : Vec2) : ConsoleState :=
  { width := s.x, height := s.y, backbuffer := fun _ => zeroCell }

/-- `term::fill` (winterm.h lines 451–459): write `{c, attrib}` to every
index below `size.x * size.y`. -/
def fill (st : ConsoleState) (a : Attribute) (c : Char) : ConsoleState :=
  { st with backbuffer := fun i =>
      if i < st.width * st.height then ⟨c.toNat, attrPack a⟩
      else st.backbuffer i }

/-- `term::clear` (winterm.h lines 446–448): `fill({ black, black }, L' ')`. -/
def clear (st : ConsoleState) : ConsoleState :=
  fill st (mkAttribute black black) ' '

/-- The value-type dispatch of `term::input` / `w32c::input`
(`if constexpr` over `T`). -/
inductive ValueType where
  | str
  | wstr
  | uint8
  | other
deriving DecidableEq

/-- `term::input` (winterm.h lines 544–583): the cursor-visibility
choreography around the blocking read.  The read itself is external
(`std::cin`); its outcome enters as `readOk` (stream success) and `tmp`
(the value parsed by the `uint8_t` special case).  Returns
`(success, cursor visible after the call)`. -/
def inputRun (cursorVisible : Bool) (vt : ValueType) (readOk : Bool)
    (tmp : Int) : Bool × Bool :=
  let should_hide_cursor := !cursorVisible
  let cursor := true
  let success :=
    match vt with
    | .str => true
    | .wstr => true
    | .uint8 => readOk && decide (0 ≤ tmp) && decide (tmp < 256)
    | .other => readOk
  let cursor := if should_hide_cursor then false else cursor
  (success, cursor)

/-- Specification-side predicate (not from the source): `true` iff the
string contains no two adjacent characters `\` `#`, i.e. the rendering
loop's escape branch is never taken on it. -/
def noEsc : List Char → Bool
  | [] => true
  | [_] => true
  | c :: d :: rest => !(c = '\\' && d = '#') && noEsc (d :: rest)

/-- An empty console from before `initialize`; scenario states below are
built from it with `size`/`fill`. -/
def initState : ConsoleState :=
  { width := 0, height := 0, backbuffer := fun _ => zeroCell }

/-- The §8 scenario base: a 10×3 console filled with
`{white, black}` / `'.'`. -/
def scenarioState : ConsoleState :=
  fill (size initState ⟨10, 3⟩) (mkAttribute white black) '.'

/-- The §8 scenario after `draw_string((2,1), {white, black}, "#41Hi",
false)`. -/
def scenarioAfter : ConsoleState :=
  (term_string scenarioState ⟨2, 1⟩ (mkAttribute white black) false
    ['#', '4', '1', 'H', 'i']).1

/-- An 80×25 console with visible content, to be discarded by a resize. -/
def resizePrev : ConsoleState :=
  fill (size initState ⟨80, 25⟩) (mkAttribute white black) 'A'

/-- The resize scenario of C3: 80×25 with content, resized to 40×10. -/
def resizeAfter : ConsoleState :=
  size resizePrev ⟨40, 10⟩

/-!
## General lemmas about the rendering loop
-/

/-- Invariant of the rendering loop: `xpos` never decreases, the indices
written are exactly the consecutive block
`start + xpos, …, start + xpos_final - 1`, and every written offset `x'`
passed the clipping guard `position.x + x' < width`. -/
theorem renderAux_spec (w px start : Nat) (fuel : Nat) (a : Attribute)
    (xpos : Nat) (s : List Char) :
    xpos ≤ (renderAux w px start fuel a xpos s).2 ∧
    (renderAux w px start fuel a xpos s).1.map Prod.fst =
      List.range' (start + xpos)
        ((renderAux w px start fuel a xpos s).2 - xpos) ∧
    (∀ x', xpos ≤ x' → x' < (renderAux w px start fuel a xpos s).2 →
      px + x' < w) := by
  induction fuel, a, xpos, s using renderAux.induct w px start with
  | case1 a xpos s =>
    exact ⟨le_refl _, by simp [renderAux], by simp [renderAux]; omega⟩
  | case2 fuel a xpos =>
    exact ⟨le_refl _, by simp [renderAux], by simp [renderAux]; omega⟩
  | case3 fuel a xpos rest h =>
    simp only [renderAux, if_pos h]
    exact ⟨le_refl _, by simp, by omega⟩
  | case4 fuel a xpos rest h ih =>
    simpa only [renderAux, if_neg h] using ih
  | case5 fuel a xpos f b rest h =>
    simp only [renderAux, if_pos h]
    exact ⟨le_refl _, by simp, by omega⟩
  | case6 fuel a xpos f b rest h ih =>
    simpa only [renderAux, if_neg h] using ih
  | case7 fuel a xpos c rest hne1 hne2 h =>
    rw [renderAux.eq_5 w px start a xpos fuel c rest hne1 hne2, if_pos h]
    exact ⟨le_refl _, by simp, by omega⟩
  | case8 fuel a xpos c rest hne1 hne2 h ih =>
    rw [renderAux.eq_5 w px start a xpos fuel c rest hne1 hne2, if_neg h]
    obtain ⟨ih1, ih2, ih3⟩ := ih
    dsimp only
    refine ⟨by omega, ?_, ?_⟩
    · simp only [List.map_cons, ih2]
      have heq : (renderAux w px start fuel a (xpos + 1) rest).2 - xpos
          = ((renderAux w px start fuel a (xpos + 1) rest).2 - (xpos + 1))
            + 1 := by omega
      rw [heq, List.range'_succ]
      simp [Nat.add_assoc]
    · intro x' hx1 hx2
      rcases Nat.eq_or_lt_of_le hx1 with rfl | hlt
      · omega
      · exact ih3 x' hlt (by simpa using hx2)

/-- The start index never leaves the target row on the left and is at most
the left-aligned start. -/
theorem stringStart_bounds (st : ConsoleState) (pos : Vec2)
    (centered : Bool) (s : List Char) :
    pos.y * st.width ≤ stringStart st pos centered s ∧
    stringStart st pos centered s ≤ pos.x + pos.y * st.width := by
  unfold stringStart
  dsimp only
  split
  · split <;> omega
  · omega

/-- Dropping the head of an escape-free string keeps it escape-free. -/
theorem noEsc_tail {c : Char} {rest : List Char}
    (h : noEsc (c :: rest) = true) : noEsc rest = true := by
  cases rest with
  | nil => rfl
  | cons d r =>
    simp only [noEsc, Bool.and_eq_true, Bool.not_eq_true'] at h
    exact h.2

/-- On escape-free input that fits the row, the final `xpos` is the
tag-stripped length: rendering emits exactly `string_length s` cells. -/
theorem renderAux_noEsc_len (w px start : Nat) :
    ∀ (fuel : Nat) (a : Attribute) (xpos : Nat) (s : List Char),
    s.length ≤ fuel → noEsc s = true → px + xpos + string_length s ≤ w →
    (renderAux w px start fuel a xpos s).2 = xpos + string_length s := by
  intro fuel a xpos s
  induction fuel, a, xpos, s using renderAux.induct w px start with
  | case1 a xpos s =>
    intro h1 _ _
    have hs : s = [] := List.length_eq_zero.mp (Nat.le_zero.mp h1)
    subst hs
    simp [renderAux, string_length]
  | case2 fuel a xpos =>
    intro _ _ _
    simp [renderAux, string_length]
  | case3 fuel a xpos rest h =>
    intro _ h2 _
    simp [noEsc] at h2
  | case4 fuel a xpos rest h ih =>
    intro _ h2 _
    simp [noEsc] at h2
  | case5 fuel a xpos f b rest h =>
    intro _ _ h3
    have hsl : string_length ('#' :: f :: b :: rest) = string_length rest := by
      simp [string_length]
    rw [hsl] at h3
    simp only [renderAux, if_pos h, hsl]
    omega
  | case6 fuel a xpos f b rest h ih =>
    intro h1 h2 h3
    have hsl : string_length ('#' :: f :: b :: rest) = string_length rest := by
      simp [string_length]
    rw [hsl] at h3
    simp only [renderAux, if_neg h, hsl]
    refine ih ?_ ?_ h3
    · simp only [List.length_cons] at h1
      omega
    · exact noEsc_tail (noEsc_tail (noEsc_tail h2))
  | case7 fuel a xpos c rest hne1 hne2 h =>
    intro _ _ h3
    rw [string_length.eq_4 c rest hne1 hne2] at h3
    exfalso
    omega
  | case8 fuel a xpos c rest hne1 hne2 h ih =>
    intro h1 h2 h3
    rw [renderAux.eq_5 w px start a xpos fuel c rest hne1 hne2, if_neg h]
    dsimp only
    rw [string_length.eq_4 c rest hne1 hne2]
    rw [string_length.eq_4 c rest hne1 hne2] at h3
    have hih := ih (by simp only [List.length_cons] at h1; omega)
      (noEsc_tail h2) (by omega)
    omega

/-- The head of a nonempty `range'`. -/
theorem head?_range' (s n : Nat) (h : n ≠ 0) :
    (List.range' s n).head? = some s := by
  obtain ⟨m, rfl⟩ := Nat.exists_eq_succ_of_ne_zero h
  rw [List.range'_succ]
  rfl

/-- The last element of a nonempty `range'`. -/
theorem getLast?_range' (s n : Nat) (h : n ≠ 0) :
    (List.range' s n).getLast? = some (s + n - 1) := by
  obtain ⟨m, rfl⟩ := Nat.exists_eq_succ_of_ne_zero h
  rw [List.range'_concat, List.getLast?_concat]
  simp

/-- The returned pair of `term::impl::string`, read off the definition:
`first = (int)start - position.y * size.x` and
`last = first + (int)xpos - 1`. -/
theorem term_string_ret (st : ConsoleState) (pos : Vec2) (a : Attribute)
    (centered : Bool) (s : List Char) :
    (term_string st pos a centered s).2.1 =
      ((stringStart st pos centered s : Nat) : Int) -
        (pos.y : Int) * (st.width : Int) ∧
    (term_string st pos a centered s).2.2 =
      (term_string st pos a centered s).2.1 +
        ((renderAux st.width pos.x (stringStart st pos centered s)
            s.length a 0 s).2 : Int) - 1 := by
  constructor <;> rfl

/-!
## The claims
-/

/-- C1, counterexample: in the §8 scenario the claim says cell (2,1)
(backbuffer index `2 + 1 * 10`) still holds `'.'` because the `#41` tag
"occupies a cell position".  It does not: the tag advances neither the
write cursor nor emits a glyph, so the first literal `'H'` is written at
(2,1) itself. -/
theorem c1_counterexample :
    (scenarioAfter.backbuffer (2 + 1 * 10)).ch ≠ ('.').toNat := by decide

/-- C1, amended: in the §8 scenario — 10×3 grid filled with
`{white, black}` / `'.'`, then `draw_string((2,1), {white, black},
"#41Hi", false)` — the `#41` tag emits nothing and occupies no cell, so
cell (2,1) holds `'H'` and cell (3,1) holds `'i'`, both with foreground 4
and background 1 (the tag sets both channels), and every other cell of
the grid still holds `'.'` with `{white, black}`. -/
theorem c1_amended :
    scenarioAfter.width = 10 ∧ scenarioAfter.height = 3 ∧
    (∀ i : Fin 30, scenarioAfter.backbuffer i.val =
      if i.val = 2 + 1 * 10 then ⟨('H').toNat, attrPack (mkAttribute 4 1)⟩
      else if i.val = 3 + 1 * 10 then
        ⟨('i').toNat, attrPack (mkAttribute 4 1)⟩
      else ⟨('.').toNat, attrPack (mkAttribute white black)⟩) := by decide

/-- C2, failing input for the code bug: in the rendering scan the escape
branch executes a bare `continue`, consuming only the backslash, so the
following `#` is re-examined; with two or more characters after it, it is
parsed as an attribute tag.  Drawing `\#12` therefore emits no literal
`#` at all (the claim and `string_length` both say one literal), and
drawing `\#12A` shows the attribute change did happen: `A` is written
with foreground 1, background 2. -/
theorem c2_failing_input :
    string_length ['\\', '#', '1', '2'] = 3 ∧
    term_string_writes scenarioState ⟨2, 1⟩ (mkAttribute white black) false
      ['\\', '#', '1', '2'] = [] ∧
    term_string_writes scenarioState ⟨2, 1⟩ (mkAttribute white black) false
      ['\\', '#', '1', '2', 'A'] =
      [(2 + 1 * 10, ⟨('A').toNat, attrPack (mkAttribute 1 2)⟩)] := by decide

/-- C3, counterexample: after resizing to 40×10 the cells are zeroed by
`memset`, so cell 0 holds character code 0, not the default cell
`{ space, black-on-black }` (character code 32) claimed by the spec. -/
theorem c3_counterexample :
    resizeAfter.backbuffer 0 ≠
      ⟨(' ').toNat, attrPack (mkAttribute black black)⟩ := by decide

/-- C3, amended: after `size(width, height)` with positive dimensions all
prior contents are discarded and every cell of the new grid is the zeroed
cell `{ NUL, black-on-black }` (the buffer is `memset` to zero, which
differs from the default cell `{ space, black-on-black }` in the
character). -/
theorem c3_amended (st : ConsoleState) (w h : Nat) (_hw : 0 < w)
    (_hh : 0 < h) :
    (size st ⟨w, h⟩).width = w ∧ (size st ⟨w, h⟩).height = h ∧
    ∀ i, (size st ⟨w, h⟩).backbuffer i = zeroCell :=
  ⟨rfl, rfl, fun _ => rfl⟩

/-- C3, witness: the amended theorem applied to the concrete 80×25 → 40×10
scenario. -/
theorem c3_witness :
    (0 < 40 ∧ 0 < 10) ∧ resizeAfter.width = 40 ∧
    resizeAfter.height = 10 ∧ resizeAfter.backbuffer 0 = zeroCell :=
  ⟨⟨by decide, by decide⟩,
   (c3_amended resizePrev 40 10 (by decide) (by decide)).1,
   (c3_amended resizePrev 40 10 (by decide) (by decide)).2.1,
   (c3_amended resizePrev 40 10 (by decide) (by decide)).2.2 0⟩

/-- C4: for every grid, every position satisfying the asserted row
precondition, every base attribute, string, and alignment mode, every
backbuffer index written by `impl::string` lies in the target row's
half-open index range `[position.y * width, (position.y + 1) * width)`. -/
theorem c4_clipping (st : ConsoleState) (pos : Vec2) (a : Attribute)
    (centered : Bool) (s : List Char) (_hy : pos.y < st.height) :
    ∀ p ∈ term_string_writes st pos a centered s,
      pos.y * st.width ≤ p.1 ∧ p.1 < (pos.y + 1) * st.width := by
  intro p hp
  obtain ⟨h1, h2, h3⟩ := renderAux_spec st.width pos.x
    (stringStart st pos centered s) s.length a 0 s
  obtain ⟨hb1, hb2⟩ := stringStart_bounds st pos centered s
  simp only [term_string_writes] at hp
  have hmem : p.1 ∈ (renderAux st.width pos.x (stringStart st pos centered s)
      s.length a 0 s).1.map Prod.fst := List.mem_map_of_mem Prod.fst hp
  rw [h2, List.mem_range'_1] at hmem
  have hx := h3 (p.1 - stringStart st pos centered s) (Nat.zero_le _)
    (by omega)
  have hk : (pos.y + 1) * st.width = pos.y * st.width + st.width := by ring
  omega

/-- C4, witness: the clipping invariant applied to a concrete draw on a
10×3 grid, at the write of `'H'` to index 12. -/
theorem c4_witness :
    (1 < 3) ∧
    (1 * 10 ≤ 2 + 1 * 10 ∧ 2 + 1 * 10 < (1 + 1) * 10) :=
  ⟨by decide,
   c4_clipping ⟨10, 3, fun _ => zeroCell⟩ ⟨2, 1⟩ (mkAttribute white black)
     false ['H', 'i'] (by decide)
     (2 + 1 * 10, ⟨('H').toNat, attrPack (mkAttribute white black)⟩)
     (by decide)⟩

/-- C5, counterexample: for the string `\#12` — tag-stripped length
`L = 3`, drawn centered at column 2 of a row of width 10, so `2 + L` does
not exceed the width and `L/2 = 1 ≤ 2` — the claim requires the written
range to start at column `2 - L/2 = 1` and span exactly `L = 3` columns,
but the rendering scan writes nothing at all (the escape bug turns `#12`
into a tag). -/
theorem c5_counterexample :
    string_length ['\\', '#', '1', '2'] = 3 ∧
    2 + string_length ['\\', '#', '1', '2'] ≤ 10 ∧
    (term_string_writes scenarioState ⟨2, 1⟩ (mkAttribute white black) true
        ['\\', '#', '1', '2']).map Prod.fst ≠
      List.range' (1 * 10 + (2 - string_length ['\\', '#', '1', '2'] / 2))
        (string_length ['\\', '#', '1', '2']) := by decide

/-- C5, amended: for every string containing no `\#` escape pair, of
tag-stripped length `L`, drawn centered at `(c, r)` with `c + L ≤ width`:
the written cells are exactly the `L` consecutive indices of row `r`
starting at column `c - L/2` when `L/2 ≤ c`, and at column 0 (the start
shifted left by exactly `c`) when `L/2 > c`; in particular the string
never wraps into the previous row. -/
theorem c5_centering (st : ConsoleState) (pos : Vec2) (a : Attribute)
    (s : List Char) (_hy : pos.y < st.height) (hesc : noEsc s = true)
    (hfit : pos.x + string_length s ≤ st.width) :
    (term_string_writes st pos a true s).map Prod.fst =
      List.range'
        (pos.y * st.width +
          (if string_length s / 2 > pos.x then 0
           else pos.x - string_length s / 2))
        (string_length s) := by
  obtain ⟨h1, h2, h3⟩ := renderAux_spec st.width pos.x
    (stringStart st pos true s) s.length a 0 s
  have hlen := renderAux_noEsc_len st.width pos.x (stringStart st pos true s)
    s.length a 0 s (le_refl _) hesc (by omega)
  simp only [term_string_writes]
  rw [h2, hlen]
  have hS : stringStart st pos true s =
      pos.y * st.width +
        (if string_length s / 2 > pos.x then 0
         else pos.x - string_length s / 2) := by
    unfold stringStart
    simp only [if_true]
    split_ifs <;> omega
  congr 1
  omega

/-- C5, witness: the amended centering theorem at a concrete centered
draw of `"Hi"` at column 4 of a 10×3 grid. -/
theorem c5_witness :
    (1 < 3 ∧ noEsc ['H', 'i'] = true ∧
      4 + string_length ['H', 'i'] ≤ 10) ∧
    (term_string_writes ⟨10, 3, fun _ => zeroCell⟩ ⟨4, 1⟩
        (mkAttribute white black) true ['H', 'i']).map Prod.fst =
      List.range'
        (1 * 10 +
          (if string_length ['H', 'i'] / 2 > 4 then 0
           else 4 - string_length ['H', 'i'] / 2))
        (string_length ['H', 'i']) :=
  ⟨⟨by decide, by decide, by decide⟩,
   c5_centering ⟨10, 3, fun _ => zeroCell⟩ ⟨4, 1⟩ (mkAttribute white black)
     ['H', 'i'] (by decide) (by decide) (by decide)⟩

/-- C6: for every `term::impl::string` call that writes at least one
cell, the returned pair is the inclusive column range actually written:
the first component is the column (index minus `position.y * width`) of
the first cell written, the second that of the last cell written, and
`last = first + k - 1` for `k` cells written. -/
theorem c6_return_range (st : ConsoleState) (pos : Vec2) (a : Attribute)
    (centered : Bool) (s : List Char) (_hy : pos.y < st.height)
    (j1 jk : Nat)
    (h1 : ((term_string_writes st pos a centered s).map Prod.fst).head? =
      some j1)
    (h2 : ((term_string_writes st pos a centered s).map Prod.fst).getLast? =
      some jk) :
    (term_string st pos a centered s).2.1 =
      (j1 : Int) - (pos.y : Int) * (st.width : Int) ∧
    (term_string st pos a centered s).2.2 =
      (jk : Int) - (pos.y : Int) * (st.width : Int) ∧
    (term_string st pos a centered s).2.2 =
      (term_string st pos a centered s).2.1 +
        ((term_string_writes st pos a centered s).length : Int) - 1 := by
  obtain ⟨hm, hmap, hg⟩ := renderAux_spec st.width pos.x
    (stringStart st pos centered s) s.length a 0 s
  simp only [Nat.add_zero, Nat.sub_zero] at hmap
  simp only [term_string_writes] at h1 h2
  rw [hmap] at h1 h2
  have hfx0 : (renderAux st.width pos.x (stringStart st pos centered s)
      s.length a 0 s).2 ≠ 0 := by
    intro h0
    rw [h0] at h1
    simp [List.range'] at h1
  rw [head?_range' _ _ hfx0] at h1
  rw [getLast?_range' _ _ hfx0] at h2
  have hj1 : stringStart st pos centered s = j1 := Option.some.inj h1
  have hjk : stringStart st pos centered s +
      (renderAux st.width pos.x (stringStart st pos centered s)
        s.length a 0 s).2 - 1 = jk := Option.some.inj h2
  have hlen : (term_string_writes st pos a centered s).length =
      (renderAux st.width pos.x (stringStart st pos centered s)
        s.length a 0 s).2 := by
    have hcl := congrArg List.length hmap
    rwa [List.length_map, List.length_range'] at hcl
  obtain ⟨hr1, hr2⟩ := term_string_ret st pos a centered s
  refine ⟨?_, ?_, ?_⟩
  · rw [hr1, ← hj1]
  · rw [hr2, hr1, ← hjk]
    generalize (pos.y : Int) * (st.width : Int) = yw
    omega
  · rw [hr2, hlen]

/-- C6, witness: drawing `"Hi"` left-aligned at (2,1) on a 10×3 grid
writes indices 12 and 13 and returns the column pair (2, 3). -/
theorem c6_witness :
    (term_string ⟨10, 3, fun _ => zeroCell⟩ ⟨2, 1⟩ (mkAttribute white black)
        false ['H', 'i']).2.1 =
      ((12 : Nat) : Int) - ((1 : Nat) : Int) * ((10 : Nat) : Int) ∧
    (term_string ⟨10, 3, fun _ => zeroCell⟩ ⟨2, 1⟩ (mkAttribute white black)
        false ['H', 'i']).2.2 =
      ((13 : Nat) : Int) - ((1 : Nat) : Int) * ((10 : Nat) : Int) ∧
    (term_string ⟨10, 3, fun _ => zeroCell⟩ ⟨2, 1⟩ (mkAttribute white black)
        false ['H', 'i']).2.2 =
      (term_string ⟨10, 3, fun _ => zeroCell⟩ ⟨2, 1⟩ (mkAttribute white black)
          false ['H', 'i']).2.1 +
        ((term_string_writes ⟨10, 3, fun _ => zeroCell⟩ ⟨2, 1⟩
            (mkAttribute white black) false ['H', 'i']).length : Int) - 1 :=
  c6_return_range ⟨10, 3, fun _ => zeroCell⟩ ⟨2, 1⟩ (mkAttribute white black)
    false ['H', 'i'] (by decide) 12 13 (by decide) (by decide)

/-- C7: a `#` with fewer than two trailing characters is not a tag: both
scans treat it as an ordinary literal.  `string_length` counts it, and
the rendering loop (when the clipping guard passes) emits it with the
current attribute; with two or more trailing characters the `#` starts a
tag and is not counted. -/
theorem c7_short_hash (rest : List Char) (hlen : rest.length ≤ 1) :
    string_length ('#' :: rest) = string_length rest + 1 ∧
    (∀ (f b : Char) (r2 : List Char),
      string_length ('#' :: f :: b :: r2) = string_length r2) ∧
    (∀ (w px start fuel : Nat) (a : Attribute) (xpos : Nat),
      px + xpos < w →
      renderAux w px start (fuel + 1) a xpos ('#' :: rest) =
        ((start + xpos, ⟨('#').toNat, attrPack a⟩) ::
            (renderAux w px start fuel a (xpos + 1) rest).1,
          (renderAux w px start fuel a (xpos + 1) rest).2)) := by
  refine ⟨?_, ?_, ?_⟩
  · exact string_length.eq_4 '#' rest
      (fun r hc _ => absurd hc (by decide))
      (fun f b r _ hr => by subst hr; simp at hlen)
  · intro f b r2
    simp [string_length]
  · intro w px start fuel a xpos h
    rw [renderAux.eq_5 w px start a xpos fuel '#' rest
      (fun r hc _ => absurd hc (by decide))
      (fun f b r _ hr => by subst hr; simp at hlen),
      if_neg (Nat.not_le.mpr h)]

/-- C7, witness: the trailing-`#` behaviour at the concrete string
`"#!"`. -/
theorem c7_witness :
    ((['!'] : List Char).length ≤ 1) ∧
    string_length ('#' :: ['!']) = string_length ['!'] + 1 ∧
    renderAux 10 0 0 (1 + 1) (mkAttribute white black) 0 ('#' :: ['!']) =
      ((0 + 0, ⟨('#').toNat, attrPack (mkAttribute white black)⟩) ::
          (renderAux 10 0 0 1 (mkAttribute white black) (0 + 1) ['!']).1,
        (renderAux 10 0 0 1 (mkAttribute white black) (0 + 1) ['!']).2) :=
  ⟨by decide, (c7_short_hash ['!'] (by decide)).1,
   (c7_short_hash ['!'] (by decide)).2.2 10 0 0 1 (mkAttribute white black) 0
     (by decide)⟩

/-- C8: after `fill(attr, ch)` every one of the `width * height` cells
equals `{ch, attr}`, and `clear()` is definitionally
`fill({black, black}, L' ')`. -/
theorem c8_fill_clear (st : ConsoleState) (a : Attribute) (c : Char) :
    (∀ i, i < st.width * st.height →
      (fill st a c).backbuffer i = ⟨c.toNat, attrPack a⟩) ∧
    clear st = fill st (mkAttribute black black) (' ') := by
  refine ⟨fun i hi => ?_, rfl⟩
  simp [fill, hi]

/-- C8, witness: `fill` and `clear` on a concrete 10×3 console. -/
theorem c8_witness :
    (0 < 10 * 3) ∧
    (fill ⟨10, 3, fun _ => zeroCell⟩ (mkAttribute white black)
        ('.')).backbuffer 0 =
      ⟨('.').toNat, attrPack (mkAttribute white black)⟩ ∧
    clear ⟨10, 3, fun _ => zeroCell⟩ =
      fill ⟨10, 3, fun _ => zeroCell⟩ (mkAttribute black black) (' ') :=
  ⟨by decide,
   (c8_fill_clear ⟨10, 3, fun _ => zeroCell⟩ (mkAttribute white black)
     ('.')).1 0 (by decide),
   (c8_fill_clear ⟨10, 3, fun _ => zeroCell⟩ (mkAttribute white black)
     ('.')).2⟩

/-- C9: for every value type and every outcome of the external read,
`input` restores the cursor-visibility state observed on entry (hidden
stays hidden, visible stays visible), on the success and the failure path
alike, and malformed input is reported through the boolean result (for
plain numeric types the result is exactly the stream state; for the
`uint8_t` special case it also requires the parsed value in `[0, 256)`). -/
theorem c9_input_restore (cv : Bool) (vt : ValueType) (readOk : Bool) (tmp : Int) :
    (inputRun cv vt readOk tmp).2 = cv ∧
    (vt = ValueType.other → (inputRun cv vt readOk tmp).1 = readOk) ∧
    (vt = ValueType.uint8 →
      ((inputRun cv vt readOk tmp).1 = true ↔
        readOk = true ∧ 0 ≤ tmp ∧ tmp < 256)) := by
  refine ⟨?_, ?_, ?_⟩
  · cases cv <;> rfl
  · intro h
    subst h
    rfl
  · intro h
    subst h
    simp [inputRun, and_assoc]

/-- C9, witness: a failed numeric read with the cursor initially hidden:
the cursor is hidden again and the failure is reported as `false`. -/
theorem c9_witness :
    (inputRun false ValueType.other false 0).2 = false ∧
    (inputRun false ValueType.other false 0).1 = false :=
  ⟨(c9_input_restore false ValueType.other false 0).1,
   (c9_input_restore false ValueType.other false 0).2.1 rfl⟩

/-- C10 (implicit): inside a `#FB` tag each code character is compared
only against the literal `'X'`; any other character `c` — digit or not —
is accepted and sets the corresponding channel to `(c - '0')` wrapped to
`uint16_t` and truncated to 4 bits, with no literal output for the three
tag characters. -/
theorem c10_tag_lenient (a : Attribute) (f b : Char) (hf : f ≠ 'X')
    (hb : b ≠ 'X') (rest : List Char) (w px start fuel xpos : Nat)
    (h : px + xpos < w) :
    renderAux w px start (fuel + 1) a xpos ('#' :: f :: b :: rest) =
      renderAux w px start fuel
        ⟨((f.toNat + 65536) - 48) % 65536 % 16,
         ((b.toNat + 65536) - 48) % 65536 % 16⟩ xpos rest := by
  simp only [renderAux, if_neg (Nat.not_le.mpr h), tagChannel,
    if_neg hf, if_neg hb]

/-- C10, witness: the non-digit tag `#ZZ` sets both channels to
`('Z' - '0') mod 16 = 10`. -/
theorem c10_witness :
    (('Z' : Char) ≠ 'X') ∧ (0 + 0 < 10) ∧
    (((('Z' : Char).toNat + 65536) - 48) % 65536 % 16 = 10) ∧
    renderAux 10 0 0 (1 + 1) (mkAttribute white black) 0
        ('#' :: 'Z' :: 'Z' :: ['a']) =
      renderAux 10 0 0 1
        ⟨((('Z' : Char).toNat + 65536) - 48) % 65536 % 16,
         ((('Z' : Char).toNat + 65536) - 48) % 65536 % 16⟩ 0 ['a'] :=
  ⟨by decide, by decide, by decide,
   c10_tag_lenient (mkAttribute white black) 'Z' 'Z' (by decide) (by decide)
     ['a'] 10 0 0 1 0 (by decide)⟩

end Winterm
